import Mathlib

/-!
# Verification of the StrategyTester reversal-analysis pipeline

Shallow embedding of `src/StrategyTester.py` (class `NQPatternAnalyzer`):
the window filter, reversal detector and statistics summarizer, together
with theorems checking the specification's claims about them.

Modelling conventions:
* A pandas timestamp index entry is a `Bar` carrying its calendar date
  (as an ordinal `Nat`) and its time of day in seconds since midnight.
* Prices are rationals (`ℚ`); the float `NaN` produced by `shift` at the
  series boundary is modelled as `Option.none`, and a pandas comparison
  against `NaN` (always `False`) is modelled by `Option.any`, which is
  `false` on `none`.
* `np.where(cond, 1, 0)` yields the integer column `reversal`, modelled
  as a `Nat` that is `1` when the condition holds and `0` otherwise.
* `Series.mean()` of an empty column is `NaN`, modelled as `none`.
-/

/-- One OHLC bar of the fetched series (`self.data` row).  `date` is the
calendar date as an ordinal, `tod` the time of day in seconds since
midnight. -/
structure Bar where
  date : Nat
  tod : Nat
  op : ℚ
  high : ℚ
  low : ℚ
  close : ℚ
deriving DecidableEq, Repr

/-- Lines 41-43: the time-of-day mask
`(index.time >= start) & (index.time <= end)` applied to the full series. -/
def windowFilter (data : List Bar) (st en : Nat) : List Bar :=
  data.filter (fun b => decide (st ≤ b.tod) && decide (b.tod ≤ en))

/-- Lines 51-52: `day_data` then `morning_data` — the bars of the given
calendar date whose time of day is at most 09:00 (= 32400 s). -/
def morningBars (data : List Bar) (d : Nat) : List Bar :=
  (data.filter (fun b => decide (b.date = d))).filter
    (fun b => decide (b.tod ≤ 9 * 3600))

/-- Lines 50-55: `get_morning_range` — `High.max() - Low.min()` over the
morning bars of the date, `0` when there are none. -/
def get_morning_range (data : List Bar) (d : Nat) : ℚ :=
  match morningBars data d with
  | [] => 0
  | b :: rest =>
    ((rest.map Bar.high).foldl max b.high) - ((rest.map Bar.low).foldl min b.low)

/-- Line 47: `(Close - prev_close) / prev_close * 100`; `NaN` (here `none`)
when there is no previous close. -/
def retOf (pc : Option ℚ) (c : ℚ) : Option ℚ :=
  pc.map (fun p => (c - p) / p * 100)

/-- Lines 61-65: `np.where((return < -0.5) & (Close.shift(-1) > Close), 1, 0)`.
A comparison whose operand is `NaN` (`none`) is `false`, so the flag is `0`
whenever the return or the next close is missing. -/
def revFlag (r : Option ℚ) (c : ℚ) (nc : Option ℚ) : Nat :=
  match r, nc with
  | some q, some n => if q < -(1/2 : ℚ) ∧ c < n then 1 else 0
  | _, _ => 0

/-- One row of the annotated `window_data` table built by
`analyze_time_window`.  (`range_stddev`, a rolling standard deviation used
only for plotting, is not modelled.) -/
structure Row where
  bar : Bar
  prev_close : Option ℚ
  ret : Option ℚ
  morning_range : ℚ
  reversal : Nat
deriving DecidableEq, Repr

/-- Builds one annotated row from a bar, the previous windowed close and
the next windowed close. -/
def mkRow (data : List Bar) (prev : Option ℚ) (b : Bar) (nc : Option ℚ) : Row :=
  { bar := b
  , prev_close := prev
  , ret := retOf prev b.close
  , morning_range := get_morning_range data b.date
  , reversal := revFlag (retOf prev b.close) b.close nc }

/-- Walks the windowed bars carrying the previous windowed close
(`Close.shift(1)` within `window_data`) and looking one windowed bar ahead
(`Close.shift(-1)` within `window_data`). -/
def windowGo (data : List Bar) : Option ℚ → List Bar → List Row
  | _, [] => []
  | prev, b :: rest =>
    mkRow data prev b (rest.head?.map Bar.close) :: windowGo data (some b.close) rest

/-- Lines 41-65 of `analyze_time_window`: filter the series to the
time-of-day window and annotate it with `prev_close`, `return`,
`morning_range` and `reversal`.  The shifts are taken on the already
windowed table, exactly as `window_data['Close'].shift(...)` does. -/
def analyzeRows (data : List Bar) (st en : Nat) : List Row :=
  windowGo data none (windowFilter data st en)

/-- Line 119-120 numerator: the number of rows where
`reversal & (return.shift(-1) > 0)` holds; the shifted return of the last
row is `NaN`, hence `false`. -/
def succCount : List Row → Nat
  | [] => 0
  | r :: rest =>
    (match rest.head?.bind Row.ret with
     | some q => if r.reversal = 1 ∧ 0 < q then 1 else 0
     | none => 0) + succCount rest

/-- The dictionary returned by `print_statistics` (lines 115-121).
`none` stands for the `NaN` a pandas `mean()` yields on an empty column. -/
structure Stats where
  total_reversals : Nat
  reversal_rate : Option ℚ
  average_return : Option ℚ
  success_rate : Option ℚ
deriving DecidableEq, Repr

/-- Lines 115-121: the four summary statistics of the annotated table. -/
def statsOf (rows : List Row) : Stats :=
  { total_reversals := (rows.map Row.reversal).sum
  , reversal_rate :=
      if rows.isEmpty then none
      else some ((((rows.map Row.reversal).sum : Nat) : ℚ) / (rows.length : ℚ) * 100)
  , average_return :=
      let rets := (rows.filter (fun r => r.reversal == 1)).filterMap Row.ret
      if rets.isEmpty then none else some (rets.sum / (rets.length : ℚ))
  , success_rate :=
      if rows.isEmpty then none
      else some (((succCount rows : Nat) : ℚ) / (rows.length : ℚ) * 100) }

/-- The analyzer's mutable fields (`self.data`, `self.patterns`);
`none` is Python's `None`. -/
structure AnalyzerState where
  data : Option (List Bar)
  patterns : Option (List Row)
deriving DecidableEq, Repr

/-- Lines 29-68: `analyze_time_window` — raises (`Except.error`) when no
data was fetched, otherwise stores and returns the annotated table. -/
def analyze_time_window (s : AnalyzerState) (st en : Nat) :
    Except String (AnalyzerState × List Row) :=
  match s.data with
  | none => .error "Please fetch data first"
  | some d =>
    .ok ({ s with patterns := some (analyzeRows d st en) }, analyzeRows d st en)

/-- Lines 108-123: `print_statistics` — raises when no analysis was run,
otherwise returns the statistics of the stored table. -/
def print_statistics (s : AnalyzerState) : Except String Stats :=
  match s.patterns with
  | none => .error "Please run analysis first"
  | some rows => .ok (statsOf rows)

/-- Two-digit rendering of a number below 100. -/
def pad2 (n : Nat) : String :=
  if n < 10 then "0" ++ toString n else toString n

/-- Renders seconds since midnight as an HH:MM:SS string. -/
def secondsToHMS (n : Nat) : String :=
  pad2 (n / 3600) ++ ":" ++ pad2 (n % 3600 / 60) ++ ":" ++ pad2 (n % 60)

/-- Modelled from the spec: `print_statistics` in the source returns only
`Total_Reversals`, `Reversal_Rate`, `Average_Return` and `Success_Rate`;
the `average_reversal_time` statistic of §4.3 is missing from the source,
so it is modelled here from the spec's words: the mean seconds-since-midnight
over reversal-flagged bars, converted back to HH:MM:SS, with the sentinel
"N/A" when no bar is flagged. -/
def average_reversal_time (rows : List Row) : String :=
  let flagged := rows.filter (fun r => r.reversal == 1)
  if flagged.isEmpty then "N/A"
  else secondsToHMS (((flagged.map (fun r => r.bar.tod)).sum) / flagged.length)

/-- The claim's reading of `Success_Rate` (for comparison with the code):
the fraction, among reversal-flagged rows only, of rows whose next row's
return is strictly positive. -/
def specSuccessRate (rows : List Row) : Option ℚ :=
  let flaggedIdx := (List.range rows.length).filter
    (fun i => (rows.get? i).any (fun r => r.reversal == 1))
  if flaggedIdx.isEmpty then none
  else some (((flaggedIdx.countP
      (fun i => ((rows.get? (i+1)).bind Row.ret).any fun q => decide (0 < q))) : ℚ)
    / (flaggedIdx.length : ℚ))

/-- Index predicate used to characterise `succCount` positionally: row `i`
is reversal-flagged and row `i+1` has a strictly positive return. -/
def nextRetPos (rows : List Row) (i : Nat) : Bool :=
  ((rows.get? i).any fun r => r.reversal == 1) &&
  (((rows.get? (i+1)).bind Row.ret).any fun q => decide (0 < q))

/-! ## Concrete series used for counterexamples and witnesses -/

/-- Day 1, 09:40 (in the window). -/
def barA : Bar := ⟨1, 34800, 100, 101, 99, 100⟩

/-- Day 1, 09:50 (in the window); closes 1% below `barA`. -/
def barB : Bar := ⟨1, 35400, 99, 100, 98, 99⟩

/-- Day 2, 09:00 (outside the window, inside the morning sub-window);
closes far above `barB`. -/
def barC : Bar := ⟨2, 32400, 200, 201, 199, 200⟩

/-- Day 2, 09:40 (in the window); closes below `barB`. -/
def barD : Bar := ⟨2, 34800, 98, 99, 97, 98⟩

/-- A series whose window 09:40-09:50 skips the full-series bar `barC`. -/
def exData1 : List Bar := [barA, barB, barC, barD]

/-- Day 1, 09:40. -/
def barE0 : Bar := ⟨1, 34800, 100, 101, 100, 100⟩

/-- Day 1, 09:45; drops 1% then is followed by a higher close. -/
def barE1 : Bar := ⟨1, 35100, 100, 100, 98, 99⟩

/-- Day 1, 09:50; closes above `barE1`. -/
def barE2 : Bar := ⟨1, 35400, 99, 101, 99, 100⟩

/-- A one-day series fully inside the window, containing one reversal. -/
def exData2 : List Bar := [barE0, barE1, barE2]

/-- Row computed for `barA` in `exData1`. -/
def rowD0 : Row := ⟨barA, none, none, 0, 0⟩

/-- Row computed for `barB` in `exData1`: return -1, not flagged because
the next windowed close (98) is lower. -/
def rowD1 : Row := ⟨barB, some 100, some (-1), 0, 0⟩

/-- Row computed for `barD` in `exData1`: its `prev_close` is `barB`'s
close, not the full-series predecessor `barC`'s. -/
def rowD2 : Row := ⟨barD, some 99, some (-100/99), 2, 0⟩

/-- Row computed for `barE0` in `exData2`. -/
def rowE0 : Row := ⟨barE0, none, none, 0, 0⟩

/-- Row computed for `barE1` in `exData2`: the flagged reversal. -/
def rowE1 : Row := ⟨barE1, some 100, some (-1), 0, 1⟩

/-- Row computed for `barE2` in `exData2`: a positive-return successor. -/
def rowE2 : Row := ⟨barE2, some 99, some (100/99), 0, 0⟩

/-! ## Helper lemmas -/

/-- The previous windowed close seen by the row at index `i` when the walk
starts with carry `prev`. -/
def prevAt (prev : Option ℚ) (l : List Bar) : Nat → Option ℚ
  | 0 => prev
  | j + 1 => (l.get? j).map Bar.close

theorem prevAt_cons (b : Bar) (rest : List Bar) (j : Nat) :
    prevAt (some b.close) rest j = ((b :: rest).get? j).map Bar.close := by
  cases j <;> rfl

/-- Positional description of the annotated table: the row at index `i` is
built from the bar at index `i`, the close at index `i - 1` (or the carry)
and the close at index `i + 1`. -/
theorem windowGo_get (data l : List Bar) : ∀ (prev : Option ℚ) (i : Nat),
    (windowGo data prev l).get? i =
      (l.get? i).map (fun b =>
        mkRow data (prevAt prev l i) b ((l.get? (i + 1)).map Bar.close)) := by
  induction l with
  | nil => intro prev i; simp [windowGo]
  | cons b rest ih =>
    intro prev i
    cases i with
    | zero => cases rest <;> rfl
    | succ i =>
      have h1 : (windowGo data prev (b :: rest)).get? (i + 1)
          = (windowGo data (some b.close) rest).get? i := rfl
      rw [h1, ih (some b.close) i, prevAt_cons]
      rfl

theorem revFlag_eq_one_iff (r : Option ℚ) (c : ℚ) (nc : Option ℚ) :
    revFlag r c nc = 1 ↔
      (∃ q, r = some q ∧ q < -(1/2 : ℚ)) ∧ (∃ n, nc = some n ∧ c < n) := by
  cases r with
  | none => simp [revFlag]
  | some q =>
    cases nc with
    | none => simp [revFlag]
    | some n =>
      by_cases h1 : q < -(1/2 : ℚ) <;> by_cases h2 : c < n <;>
        simp [revFlag, h1, h2]

theorem revFlag_zero_or_one (r : Option ℚ) (c : ℚ) (nc : Option ℚ) :
    revFlag r c nc = 0 ∨ revFlag r c nc = 1 := by
  cases r with
  | none => exact Or.inl rfl
  | some q =>
    cases nc with
    | none => exact Or.inl rfl
    | some n =>
      by_cases h : q < -(1/2 : ℚ) ∧ c < n
      · right
        show (if q < -(1/2 : ℚ) ∧ c < n then 1 else 0) = 1
        rw [if_pos h]
      · left
        show (if q < -(1/2 : ℚ) ∧ c < n then 1 else 0) = 0
        rw [if_neg h]

theorem revFlag_none_next (r : Option ℚ) (c : ℚ) : revFlag r c none = 0 := by
  cases r <;> rfl

/-- Every row produced by the walk has a reversal flag of `0` or `1`. -/
theorem reversal_mem (data : List Bar) (l : List Bar) :
    ∀ (prev : Option ℚ) (row : Row), row ∈ windowGo data prev l →
      row.reversal = 0 ∨ row.reversal = 1 := by
  induction l with
  | nil => intro prev row h; simp [windowGo] at h
  | cons b rest ih =>
    intro prev row h
    rcases List.mem_cons.mp h with h | h
    · subst h; exact revFlag_zero_or_one _ _ _
    · exact ih (some b.close) row h

theorem foldl_max_mem (l : List ℚ) : ∀ a : ℚ, l.foldl max a = a ∨ l.foldl max a ∈ l := by
  induction l with
  | nil => intro a; exact Or.inl rfl
  | cons x t ih =>
    intro a
    rcases ih (max a x) with h | h
    · rcases le_total a x with hax | hxa
      · right
        rw [List.foldl_cons, h, max_eq_right hax]
        exact List.mem_cons_self _ _
      · left
        rw [List.foldl_cons, h, max_eq_left hxa]
    · right
      rw [List.foldl_cons]
      exact List.mem_cons_of_mem _ h

theorem le_foldl_max (l : List ℚ) :
    ∀ a : ℚ, a ≤ l.foldl max a ∧ ∀ x ∈ l, x ≤ l.foldl max a := by
  induction l with
  | nil => intro a; exact ⟨le_refl a, by simp⟩
  | cons y t ih =>
    intro a
    obtain ⟨h1, h2⟩ := ih (max a y)
    refine ⟨?_, ?_⟩
    · rw [List.foldl_cons]
      exact le_trans (le_max_left a y) h1
    · intro x hx
      rw [List.foldl_cons]
      rcases List.mem_cons.mp hx with rfl | hx
      · exact le_trans (le_max_right a x) h1
      · exact h2 x hx

theorem foldl_min_mem (l : List ℚ) : ∀ a : ℚ, l.foldl min a = a ∨ l.foldl min a ∈ l := by
  induction l with
  | nil => intro a; exact Or.inl rfl
  | cons x t ih =>
    intro a
    rcases ih (min a x) with h | h
    · rcases le_total x a with hxa | hax
      · right
        rw [List.foldl_cons, h, min_eq_right hxa]
        exact List.mem_cons_self _ _
      · left
        rw [List.foldl_cons, h, min_eq_left hax]
    · right
      rw [List.foldl_cons]
      exact List.mem_cons_of_mem _ h

theorem foldl_min_le (l : List ℚ) :
    ∀ a : ℚ, l.foldl min a ≤ a ∧ ∀ x ∈ l, l.foldl min a ≤ x := by
  induction l with
  | nil => intro a; exact ⟨le_refl a, by simp⟩
  | cons y t ih =>
    intro a
    obtain ⟨h1, h2⟩ := ih (min a y)
    refine ⟨?_, ?_⟩
    · rw [List.foldl_cons]
      exact le_trans h1 (min_le_left a y)
    · intro x hx
      rw [List.foldl_cons]
      rcases List.mem_cons.mp hx with rfl | hx
      · exact le_trans h1 (min_le_right a x)
      · exact h2 x hx

/-- `succCount` counts exactly the indices whose row is flagged and whose
successor row has a strictly positive return. -/
theorem succCount_eq_countP : ∀ rows : List Row,
    succCount rows = (List.range rows.length).countP (nextRetPos rows) := by
  intro rows
  induction rows with
  | nil => rfl
  | cons r rest ih =>
    show (match rest.head?.bind Row.ret with
          | some q => if r.reversal = 1 ∧ 0 < q then 1 else 0
          | none => 0) + succCount rest
        = (List.range (rest.length + 1)).countP (nextRetPos (r :: rest))
    rw [List.range_succ_eq_map, List.countP_cons, List.countP_map]
    have hshift : nextRetPos (r :: rest) ∘ Nat.succ = nextRetPos rest := by
      funext i; rfl
    have hhead : (match rest.head?.bind Row.ret with
          | some q => if r.reversal = 1 ∧ 0 < q then 1 else 0
          | none => 0)
        = if nextRetPos (r :: rest) 0 = true then 1 else 0 := by
      have hn : nextRetPos (r :: rest) 0
          = ((r.reversal == 1) &&
            ((rest.head?.bind Row.ret).any fun q => decide (0 < q))) := by
        cases rest <;> rfl
      rw [hn]
      cases hb : rest.head?.bind Row.ret with
      | none => simp
      | some q =>
        by_cases h1 : r.reversal = 1 <;> by_cases h2 : 0 < q <;>
          simp [h1, h2]
    rw [hshift, ih, hhead]
    omega

theorem strData_append (s t : String) : (s ++ t).data = s.data ++ t.data := rfl

theorem secondsToHMS_ne_NA (n : Nat) : secondsToHMS n ≠ "N/A" := by
  intro h
  have hmem : ':' ∈ (secondsToHMS n).data := by
    unfold secondsToHMS
    rw [strData_append, strData_append, strData_append, strData_append]
    have hc : (":" : String).data = [':'] := rfl
    rw [hc]
    simp
  rw [h] at hmem
  have hna : ("N/A" : String).data = ['N', '/', 'A'] := rfl
  rw [hna] at hmem
  exact absurd hmem (by decide)

theorem isEmpty_false_of_ne_nil {α : Type} {l : List α} (h : l ≠ []) :
    l.isEmpty = false := by
  cases l with
  | nil => exact absurd rfl h
  | cons a t => rfl

theorem windowFilter_exData1 : windowFilter exData1 34800 35400 = [barA, barB, barD] := by
  decide

theorem windowFilter_exData2 : windowFilter exData2 34800 35400 = [barE0, barE1, barE2] := by
  decide

/-- Concrete evaluation of the annotated table on `exData1`. -/
theorem analyzeRows_exData1 : analyzeRows exData1 34800 35400 = [rowD0, rowD1, rowD2] := by
  show windowGo exData1 none (windowFilter exData1 34800 35400) = _
  rw [windowFilter_exData1]
  have h0 : mkRow exData1 none barA (some barB.close) = rowD0 := by decide
  have h1 : mkRow exData1 (some barA.close) barB (some barD.close) = rowD1 := by
    norm_num [mkRow, rowD1, retOf, revFlag, get_morning_range, morningBars,
      exData1, barA, barB, barC, barD, Row.mk.injEq]
  have h2 : mkRow exData1 (some barB.close) barD none = rowD2 := by
    norm_num [mkRow, rowD2, retOf, revFlag, get_morning_range, morningBars,
      exData1, barA, barB, barC, barD, Row.mk.injEq]
  show mkRow exData1 none barA (some barB.close)
      :: mkRow exData1 (some barA.close) barB (some barD.close)
      :: mkRow exData1 (some barB.close) barD none :: [] = [rowD0, rowD1, rowD2]
  rw [h0, h1, h2]

/-- Concrete evaluation of the annotated table on `exData2`. -/
theorem analyzeRows_exData2 : analyzeRows exData2 34800 35400 = [rowE0, rowE1, rowE2] := by
  show windowGo exData2 none (windowFilter exData2 34800 35400) = _
  rw [windowFilter_exData2]
  have h0 : mkRow exData2 none barE0 (some barE1.close) = rowE0 := by decide
  have h1 : mkRow exData2 (some barE0.close) barE1 (some barE2.close) = rowE1 := by
    norm_num [mkRow, rowE1, retOf, revFlag, get_morning_range, morningBars,
      exData2, barE0, barE1, barE2, Row.mk.injEq]
  have h2 : mkRow exData2 (some barE1.close) barE2 none = rowE2 := by
    norm_num [mkRow, rowE2, retOf, revFlag, get_morning_range, morningBars,
      exData2, barE0, barE1, barE2, Row.mk.injEq]
  show mkRow exData2 none barE0 (some barE1.close)
      :: mkRow exData2 (some barE0.close) barE1 (some barE2.close)
      :: mkRow exData2 (some barE1.close) barE2 none :: [] = [rowE0, rowE1, rowE2]
  rw [h0, h1, h2]

/-! ## Claim theorems -/

/-- C6: for `start ≤ end` the window filter returns exactly the subsequence
of bars whose time of day lies in the inclusive interval `[start, end]`,
preserving original order (a sublist of the series containing each bar as
often as the series does iff its time of day is in range); with
`start = end = T` it contains precisely the bars at time `T`. -/
theorem windowFilter_spec (data : List Bar) (st en : Nat) (h : st ≤ en) :
    (windowFilter data st en).Sublist data ∧
    (∀ b : Bar, (windowFilter data st en).count b =
      if st ≤ b.tod ∧ b.tod ≤ en then data.count b else 0) ∧
    (∀ b : Bar, b ∈ windowFilter data st st ↔ b ∈ data ∧ b.tod = st) := by
  refine ⟨List.filter_sublist data, ?_, ?_⟩
  · intro b
    by_cases hb : st ≤ b.tod ∧ b.tod ≤ en
    · rw [if_pos hb]
      exact List.count_filter (by simpa using hb)
    · rw [if_neg hb]
      refine List.count_eq_zero.mpr ?_
      intro hmem
      exact hb (by simpa using (List.mem_filter.mp hmem).2)
  · intro b
    unfold windowFilter
    rw [List.mem_filter]
    constructor
    · rintro ⟨h1, h2⟩
      simp only [Bool.and_eq_true, decide_eq_true_eq] at h2
      exact ⟨h1, Nat.le_antisymm h2.2 h2.1⟩
    · rintro ⟨h1, h2⟩
      refine ⟨h1, ?_⟩
      simp [h2]

/-- Witness for C6 at a concrete series and window. -/
theorem windowFilter_spec_witness :
    (windowFilter exData2 34800 35400).count barE1 =
      if 34800 ≤ barE1.tod ∧ barE1.tod ≤ 35400 then exData2.count barE1 else 0 :=
  (windowFilter_spec exData2 34800 35400 (by decide)).2.1 barE1

/-- C7 counterexample: an empty (but present) series is not rejected —
`analyze_time_window` succeeds on it, and statistics are then produced. -/
theorem analyze_empty_series_ok :
    analyze_time_window ⟨some [], none⟩ 34800 35400 = .ok (⟨some [], some []⟩, []) ∧
    print_statistics ⟨some [], some []⟩ = .ok ⟨0, none, none, none⟩ :=
  ⟨rfl, rfl⟩

/-- C7 amended: only an absent series (no fetch) fails, with the message
"Please fetch data first"; a present series, empty or not, is analyzed. -/
theorem analyze_missing_data (st en : Nat) (pats : Option (List Row)) (d : List Bar) :
    analyze_time_window ⟨none, pats⟩ st en = .error "Please fetch data first" ∧
    analyze_time_window ⟨some d, pats⟩ st en =
      .ok (⟨some d, some (analyzeRows d st en)⟩, analyzeRows d st en) :=
  ⟨rfl, rfl⟩

/-- C10: the reversal column of the annotated table holds exactly `0` or
`1` in every row — rows with an undefined return and the last windowed row
get `0`, never a null value (`np.where` maps the `NaN` comparisons, which
are false, to `0`). -/
theorem reversal_zero_or_one (data : List Bar) (st en : Nat) (row : Row)
    (h : row ∈ analyzeRows data st en) : row.reversal = 0 ∨ row.reversal = 1 :=
  reversal_mem data (windowFilter data st en) none row h

/-- Witness for C10 at the first row of a concrete analysis. -/
theorem reversal_zero_or_one_witness :
    rowE0.reversal = 0 ∨ rowE0.reversal = 1 :=
  reversal_zero_or_one exData2 34800 35400 rowE0
    (by rw [analyzeRows_exData2]; exact List.mem_cons_self _ _)

/-- C9: the pipeline is a deterministic, stateless transformation — running
`analyze_time_window` again from the state a first run produced returns the
identical state and table, so the summarized statistics are identical. -/
theorem pipeline_idempotent (s : AnalyzerState) (st en : Nat)
    (s₁ : AnalyzerState) (w₁ : List Row)
    (h : analyze_time_window s st en = .ok (s₁, w₁)) :
    analyze_time_window s₁ st en = .ok (s₁, w₁) ∧
    print_statistics s₁ = .ok (statsOf w₁) := by
  cases s with
  | mk d pats =>
    cases d with
    | none => exact absurd h (by simp [analyze_time_window])
    | some d =>
      simp only [analyze_time_window, Except.ok.injEq, Prod.mk.injEq] at h
      obtain ⟨h1, h2⟩ := h
      subst h1
      subst h2
      exact ⟨rfl, rfl⟩

/-- Witness for C9: a second run on the state left by a concrete first run. -/
theorem pipeline_idempotent_witness :
    analyze_time_window ⟨some exData2, some (analyzeRows exData2 34800 35400)⟩ 34800 35400
      = .ok (⟨some exData2, some (analyzeRows exData2 34800 35400)⟩,
             analyzeRows exData2 34800 35400) ∧
    print_statistics ⟨some exData2, some (analyzeRows exData2 34800 35400)⟩
      = .ok (statsOf (analyzeRows exData2 34800 35400)) :=
  pipeline_idempotent ⟨some exData2, none⟩ 34800 35400
    ⟨some exData2, some (analyzeRows exData2 34800 35400)⟩
    (analyzeRows exData2 34800 35400) rfl

/-- C1 counterexample: the windowed bar at window index 2 is the
full-series bar at index 3 (`barD`); its immediate predecessor in the full
series (`barC`, index 2) closes at 200, but the code's `prev_close` — the
previous close within the filtered window — is 99. -/
theorem prev_close_not_full_series :
    (windowFilter exData1 34800 35400).get? 2 = some barD ∧
    exData1.get? 3 = some barD ∧
    (exData1.get? 2).map Bar.close = some 200 ∧
    ((analyzeRows exData1 34800 35400).get? 2).map Row.prev_close = some (some 99) ∧
    some (99 : ℚ) ≠ some (200 : ℚ) := by
  refine ⟨by decide, by decide, by decide, ?_, by decide⟩
  rw [analyzeRows_exData1]
  rfl

/-- C1 amended: `prev_close` is the close of the immediate predecessor
within the filtered window (`none` for the first windowed row), and the
reversal lookahead compares against the close of the immediate successor
within the filtered window. -/
theorem prev_close_from_window (data : List Bar) (st en i : Nat) (row : Row)
    (h : (analyzeRows data st en).get? i = some row) :
    (i = 0 → row.prev_close = none) ∧
    (∀ j, i = j + 1 → ∃ pr, (analyzeRows data st en).get? j = some pr ∧
      row.prev_close = some pr.bar.close) ∧
    (row.reversal = 1 → ∃ nr, (analyzeRows data st en).get? (i + 1) = some nr ∧
      row.bar.close < nr.bar.close) := by
  simp only [analyzeRows] at h ⊢
  rw [windowGo_get] at h
  cases hwi : (windowFilter data st en).get? i with
  | none => rw [hwi] at h; cases h
  | some b =>
    rw [hwi] at h
    simp only [Option.map_some'] at h
    injection h with h
    subst h
    refine ⟨?_, ?_, ?_⟩
    · rintro rfl; rfl
    · intro j hj
      subst hj
      cases hwj : (windowFilter data st en).get? j with
      | none =>
        exfalso
        have hnone : (windowFilter data st en).get? (j + 1) = none := by
          rw [List.get?_eq_none] at hwj ⊢
          omega
        rw [hnone] at hwi
        cases hwi
      | some pb =>
        refine ⟨mkRow data (prevAt none (windowFilter data st en) j) pb
          (((windowFilter data st en).get? (j + 1)).map Bar.close), ?_, ?_⟩
        · rw [windowGo_get, hwj]; rfl
        · show prevAt none (windowFilter data st en) (j + 1) = some pb.close
          show ((windowFilter data st en).get? j).map Bar.close = some pb.close
          rw [hwj]; rfl
    · intro hrev
      obtain ⟨⟨q, hq, hqlt⟩, n, hn, hcn⟩ := (revFlag_eq_one_iff _ _ _).mp hrev
      cases hwn : (windowFilter data st en).get? (i + 1) with
      | none => rw [hwn] at hn; cases hn
      | some nb =>
        rw [hwn] at hn
        simp only [Option.map_some'] at hn
        injection hn with hn
        refine ⟨mkRow data (prevAt none (windowFilter data st en) (i + 1)) nb
          (((windowFilter data st en).get? (i + 2)).map Bar.close), ?_, ?_⟩
        · rw [windowGo_get, hwn]; rfl
        · show b.close < nb.close
          rw [hn]
          exact hcn

/-- Witness for C1 (amended) at the second row of a concrete analysis. -/
theorem prev_close_from_window_witness :
    ∃ pr, (analyzeRows exData2 34800 35400).get? 0 = some pr ∧
      rowE1.prev_close = some pr.bar.close :=
  (prev_close_from_window exData2 34800 35400 1 rowE1
    (by rw [analyzeRows_exData2]; rfl)).2.1 0 rfl

/-- C2 counterexample: windowed row 1 (`barB`, full-series index 1) has
return -1 < -0.5 and its successor in the full series (`barC`) closes at
200 > 99, yet the code's flag is 0, because the successor within the
window (`barD`) closes lower. -/
theorem reversal_not_full_series_lookahead :
    ((analyzeRows exData1 34800 35400).get? 1).map Row.ret = some (some (-1)) ∧
    (-1 : ℚ) < -(1/2) ∧
    (windowFilter exData1 34800 35400).get? 1 = some barB ∧
    exData1.get? 1 = some barB ∧
    (exData1.get? 2).map Bar.close = some 200 ∧
    barB.close < 200 ∧
    ((analyzeRows exData1 34800 35400).get? 1).map Row.reversal = some 0 := by
  refine ⟨?_, by norm_num, by decide, by decide, by decide, by decide, ?_⟩
  · rw [analyzeRows_exData1]; rfl
  · rw [analyzeRows_exData1]; rfl

/-- C2 amended: the reversal flag is 1 iff the row's return is strictly
below -0.5 and the close of the next row in the *windowed* sequence is
strictly greater than this row's close; a row with no successor in the
window (in particular the last one) is never flagged. -/
theorem reversal_flag_iff (data : List Bar) (st en i : Nat) (row : Row)
    (h : (analyzeRows data st en).get? i = some row) :
    (row.reversal = 1 ↔
      ((∃ q, row.ret = some q ∧ q < -(1/2 : ℚ)) ∧
       (∃ nr, (analyzeRows data st en).get? (i + 1) = some nr ∧
         row.bar.close < nr.bar.close))) ∧
    ((analyzeRows data st en).get? (i + 1) = none → row.reversal = 0) := by
  simp only [analyzeRows] at h ⊢
  rw [windowGo_get] at h
  cases hwi : (windowFilter data st en).get? i with
  | none => rw [hwi] at h; cases h
  | some b =>
    rw [hwi] at h
    simp only [Option.map_some'] at h
    injection h with h
    subst h
    constructor
    · rw [show (mkRow data (prevAt none (windowFilter data st en) i) b
          (((windowFilter data st en).get? (i + 1)).map Bar.close)).reversal
          = revFlag (retOf (prevAt none (windowFilter data st en) i) b.close) b.close
              (((windowFilter data st en).get? (i + 1)).map Bar.close) from rfl,
        revFlag_eq_one_iff]
      constructor
      · rintro ⟨hq, n, hn, hcn⟩
        refine ⟨hq, ?_⟩
        cases hwn : (windowFilter data st en).get? (i + 1) with
        | none => rw [hwn] at hn; cases hn
        | some nb =>
          rw [hwn] at hn
          simp only [Option.map_some'] at hn
          injection hn with hn
          refine ⟨mkRow data (prevAt none (windowFilter data st en) (i + 1)) nb
            (((windowFilter data st en).get? (i + 2)).map Bar.close), ?_, ?_⟩
          · rw [windowGo_get, hwn]; rfl
          · show b.close < nb.close
            rw [hn]; exact hcn
      · rintro ⟨hq, nr, hnr, hcn⟩
        refine ⟨hq, ?_⟩
        rw [windowGo_get] at hnr
        cases hwn : (windowFilter data st en).get? (i + 1) with
        | none => rw [hwn] at hnr; cases hnr
        | some nb =>
          rw [hwn] at hnr
          simp only [Option.map_some'] at hnr
          injection hnr with hnr
          refine ⟨nb.close, rfl, ?_⟩
          have hbar : nr.bar = nb := by rw [← hnr]; rfl
          rw [← hbar]
          exact hcn
    · intro hnone
      rw [windowGo_get] at hnone
      have hwn : (windowFilter data st en).get? (i + 1) = none :=
        Option.map_eq_none'.mp hnone
      show revFlag (retOf (prevAt none (windowFilter data st en) i) b.close) b.close
        (((windowFilter data st en).get? (i + 1)).map Bar.close) = 0
      rw [hwn]
      exact revFlag_none_next _ _

/-- Witness for C2 (amended) at the flagged row of a concrete analysis. -/
theorem reversal_flag_iff_witness :
    rowE1.reversal = 1 ↔
      ((∃ q, rowE1.ret = some q ∧ q < -(1/2 : ℚ)) ∧
       (∃ nr, (analyzeRows exData2 34800 35400).get? 2 = some nr ∧
         rowE1.bar.close < nr.bar.close)) :=
  (reversal_flag_iff exData2 34800 35400 1 rowE1
    (by rw [analyzeRows_exData2]; rfl)).1

/-- Characterisation of `get_morning_range`: 0 on an empty morning set,
otherwise the difference between an attained maximal high and an attained
minimal low. -/
theorem get_morning_range_char (data : List Bar) (d : Nat) :
    (morningBars data d = [] → get_morning_range data d = 0) ∧
    (morningBars data d ≠ [] → ∃ hi lo, hi ∈ morningBars data d ∧ lo ∈ morningBars data d ∧
      get_morning_range data d = hi.high - lo.low ∧
      ∀ y ∈ morningBars data d, y.high ≤ hi.high ∧ lo.low ≤ y.low) := by
  cases hM : morningBars data d with
  | nil =>
    refine ⟨fun _ => ?_, fun hne => absurd rfl hne⟩
    unfold get_morning_range
    rw [hM]
  | cons b rest =>
    refine ⟨fun h0 => absurd h0 (List.cons_ne_nil b rest), fun _ => ?_⟩
    have hgm : get_morning_range data d
        = ((rest.map Bar.high).foldl max b.high) - ((rest.map Bar.low).foldl min b.low) := by
      unfold get_morning_range
      rw [hM]
    obtain ⟨hiB, hiMem, hiEq⟩ :
        ∃ x, x ∈ b :: rest ∧ x.high = (rest.map Bar.high).foldl max b.high := by
      rcases foldl_max_mem (rest.map Bar.high) b.high with hc | hc
      · exact ⟨b, List.mem_cons_self _ _, hc.symm⟩
      · obtain ⟨x, hx, hxe⟩ := List.mem_map.mp hc
        exact ⟨x, List.mem_cons_of_mem _ hx, hxe⟩
    obtain ⟨loB, loMem, loEq⟩ :
        ∃ x, x ∈ b :: rest ∧ x.low = (rest.map Bar.low).foldl min b.low := by
      rcases foldl_min_mem (rest.map Bar.low) b.low with hc | hc
      · exact ⟨b, List.mem_cons_self _ _, hc.symm⟩
      · obtain ⟨x, hx, hxe⟩ := List.mem_map.mp hc
        exact ⟨x, List.mem_cons_of_mem _ hx, hxe⟩
    refine ⟨hiB, loB, hiMem, loMem, ?_, ?_⟩
    · rw [hgm, hiEq, loEq]
    · intro y hy
      obtain ⟨h1max, h2max⟩ := le_foldl_max (rest.map Bar.high) b.high
      obtain ⟨h1min, h2min⟩ := foldl_min_le (rest.map Bar.low) b.low
      constructor
      · rw [hiEq]
        rcases List.mem_cons.mp hy with rfl | hy2
        · exact h1max
        · exact h2max _ (List.mem_map_of_mem _ hy2)
      · rw [loEq]
        rcases List.mem_cons.mp hy with rfl | hy2
        · exact h1min
        · exact h2min _ (List.mem_map_of_mem _ hy2)

/-- C8: for every windowed row, `morning_range` is max(High) − min(Low)
over the bars of the same calendar date whose time of day is at most the
09:00 cutoff, and 0 when that date has no such bars. -/
theorem morning_range_spec (data : List Bar) (st en i : Nat) (row : Row)
    (h : (analyzeRows data st en).get? i = some row) :
    (morningBars data row.bar.date = [] → row.morning_range = 0) ∧
    (morningBars data row.bar.date ≠ [] →
      ∃ hi lo, hi ∈ morningBars data row.bar.date ∧ lo ∈ morningBars data row.bar.date ∧
        row.morning_range = hi.high - lo.low ∧
        ∀ y ∈ morningBars data row.bar.date, y.high ≤ hi.high ∧ lo.low ≤ y.low) := by
  simp only [analyzeRows] at h
  rw [windowGo_get] at h
  cases hwi : (windowFilter data st en).get? i with
  | none => rw [hwi] at h; cases h
  | some b =>
    rw [hwi] at h
    simp only [Option.map_some'] at h
    injection h with h
    subst h
    exact get_morning_range_char data b.date

/-- Witness for C8 at a row whose date has a non-empty morning set. -/
theorem morning_range_spec_witness :
    ∃ hi lo, hi ∈ morningBars exData1 rowD2.bar.date ∧
      lo ∈ morningBars exData1 rowD2.bar.date ∧
      rowD2.morning_range = hi.high - lo.low ∧
      ∀ y ∈ morningBars exData1 rowD2.bar.date, y.high ≤ hi.high ∧ lo.low ≤ y.low :=
  (morning_range_spec exData1 34800 35400 2 rowD2
    (by rw [analyzeRows_exData1]; rfl)).2 (by decide)

/-- C3 (spec-modelled `average_reversal_time`): the sentinel "N/A" is
returned exactly when the code's `Total_Reversals` is zero; otherwise the
value is the HH:MM:SS rendering of the mean seconds-since-midnight over
the flagged rows. -/
theorem average_reversal_time_spec (data : List Bar) (st en : Nat) :
    (average_reversal_time (analyzeRows data st en) = "N/A" ↔
      (statsOf (analyzeRows data st en)).total_reversals = 0) ∧
    ((statsOf (analyzeRows data st en)).total_reversals ≠ 0 →
      average_reversal_time (analyzeRows data st en) =
        secondsToHMS ((((analyzeRows data st en).filter
            (fun r => r.reversal == 1)).map (fun r => r.bar.tod)).sum /
          ((analyzeRows data st en).filter (fun r => r.reversal == 1)).length)) := by
  have h01 : ∀ row ∈ analyzeRows data st en, row.reversal = 0 ∨ row.reversal = 1 :=
    fun row hr => reversal_mem data (windowFilter data st en) none row hr
  have hzero : (statsOf (analyzeRows data st en)).total_reversals = 0 ↔
      (analyzeRows data st en).filter (fun r => r.reversal == 1) = [] := by
    constructor
    · intro h0
      have hall := List.sum_eq_zero_iff.mp h0
      refine List.filter_eq_nil_iff.mpr ?_
      intro r hr
      have hr0 : r.reversal = 0 := hall _ (List.mem_map_of_mem Row.reversal hr)
      simp [hr0]
    · intro hnil
      refine List.sum_eq_zero_iff.mpr ?_
      intro x hx
      obtain ⟨r, hr, rfl⟩ := List.mem_map.mp hx
      rcases h01 r hr with h | h
      · exact h
      · exfalso
        have hc := List.filter_eq_nil_iff.mp hnil r hr
        simp [h] at hc
  by_cases hfe : (analyzeRows data st en).filter (fun r => r.reversal == 1) = []
  · have havg : average_reversal_time (analyzeRows data st en) = "N/A" := by
      simp [average_reversal_time, hfe]
    refine ⟨⟨fun _ => hzero.mpr hfe, fun _ => havg⟩, fun hne => absurd (hzero.mpr hfe) hne⟩
  · have hne : ((analyzeRows data st en).filter (fun r => r.reversal == 1)).isEmpty = false :=
      isEmpty_false_of_ne_nil hfe
    have havg : average_reversal_time (analyzeRows data st en) =
        secondsToHMS ((((analyzeRows data st en).filter (fun r => r.reversal == 1)).map
            (fun r => r.bar.tod)).sum /
          ((analyzeRows data st en).filter (fun r => r.reversal == 1)).length) := by
      simp [average_reversal_time, hne]
    refine ⟨⟨?_, ?_⟩, fun _ => havg⟩
    · intro hNA
      rw [havg] at hNA
      exact absurd hNA (secondsToHMS_ne_NA _)
    · intro h0
      exact absurd (hzero.mp h0) hfe

/-- Witness for C3: the concrete reversal at 09:45 gives "09:45:00". -/
theorem average_reversal_time_spec_witness :
    average_reversal_time (analyzeRows exData2 34800 35400) = "09:45:00" ∧
    (statsOf (analyzeRows exData2 34800 35400)).total_reversals ≠ 0 ∧
    average_reversal_time (analyzeRows exData2 34800 35400) =
      secondsToHMS ((((analyzeRows exData2 34800 35400).filter
          (fun r => r.reversal == 1)).map (fun r => r.bar.tod)).sum /
        ((analyzeRows exData2 34800 35400).filter (fun r => r.reversal == 1)).length) :=
  ⟨by rw [analyzeRows_exData2]; decide,
   by rw [analyzeRows_exData2]; decide,
   (average_reversal_time_spec exData2 34800 35400).2
     (by rw [analyzeRows_exData2]; decide)⟩

/-- C4 counterexample: on an empty windowed set, `Reversal_Rate` is the
`NaN` of an empty `mean()` (modelled `none`), not the value 0. -/
theorem reversal_rate_empty_nan :
    (statsOf (analyzeRows [] 34800 35400)).reversal_rate = none ∧
    (statsOf (analyzeRows [] 34800 35400)).reversal_rate ≠ some 0 :=
  ⟨rfl, by decide⟩

/-- C4 amended: on a non-empty window `Reversal_Rate` equals
`total_reversals / count × 100` and lies in [0, 100]; on an empty window
it is undefined (`NaN`), not 0. -/
theorem reversal_rate_spec (data : List Bar) (st en : Nat) :
    (analyzeRows data st en = [] → (statsOf (analyzeRows data st en)).reversal_rate = none) ∧
    (analyzeRows data st en ≠ [] →
      (statsOf (analyzeRows data st en)).reversal_rate =
        some (((statsOf (analyzeRows data st en)).total_reversals : ℚ) /
          ((analyzeRows data st en).length : ℚ) * 100) ∧
      ∀ q, (statsOf (analyzeRows data st en)).reversal_rate = some q →
        0 ≤ q ∧ q ≤ 100) := by
  constructor
  · intro h
    simp [statsOf, h]
  · intro hne
    have hEm : (analyzeRows data st en).isEmpty = false := isEmpty_false_of_ne_nil hne
    have hval : (statsOf (analyzeRows data st en)).reversal_rate =
        some ((((analyzeRows data st en).map Row.reversal).sum : ℚ) /
          ((analyzeRows data st en).length : ℚ) * 100) := by
      simp [statsOf, hEm]
    refine ⟨hval, ?_⟩
    intro q hq
    rw [hval] at hq
    have hq' : q = (((analyzeRows data st en).map Row.reversal).sum : ℚ) /
        ((analyzeRows data st en).length : ℚ) * 100 := (Option.some.inj hq).symm
    subst hq'
    constructor
    · exact mul_nonneg (div_nonneg (Nat.cast_nonneg _) (Nat.cast_nonneg _)) (by norm_num)
    · have hforall : ∀ x ∈ (analyzeRows data st en).map Row.reversal, x ≤ 1 := by
        intro x hx
        obtain ⟨r, hr, rfl⟩ := List.mem_map.mp hx
        rcases reversal_mem data (windowFilter data st en) none r hr with h | h <;> omega
      have hsum : ((analyzeRows data st en).map Row.reversal).sum ≤
          (analyzeRows data st en).length := by
        have hb := List.sum_le_card_nsmul _ _ hforall
        simpa using hb
      have hlen : (0:ℚ) < ((analyzeRows data st en).length : ℚ) := by
        have hl : 0 < (analyzeRows data st en).length := List.length_pos.mpr hne
        exact_mod_cast hl
      have hdiv : ((((analyzeRows data st en).map Row.reversal).sum : ℕ) : ℚ) /
          ((analyzeRows data st en).length : ℚ) ≤ 1 := by
        rw [div_le_one hlen]
        exact_mod_cast hsum
      calc ((((analyzeRows data st en).map Row.reversal).sum : ℕ) : ℚ) /
            ((analyzeRows data st en).length : ℚ) * 100 ≤ 1 * 100 :=
          mul_le_mul_of_nonneg_right hdiv (by norm_num)
        _ = 100 := by norm_num

/-- Witness for C4 (amended) on a non-empty concrete window. -/
theorem reversal_rate_spec_witness :
    (statsOf (analyzeRows exData2 34800 35400)).reversal_rate =
      some (((statsOf (analyzeRows exData2 34800 35400)).total_reversals : ℚ) /
        ((analyzeRows exData2 34800 35400).length : ℚ) * 100) ∧
    ∀ q, (statsOf (analyzeRows exData2 34800 35400)).reversal_rate = some q →
      0 ≤ q ∧ q ≤ 100 :=
  (reversal_rate_spec exData2 34800 35400).2 (by rw [analyzeRows_exData2]; simp)

/-- C5 counterexample: with one flagged row out of three, the code's
`Success_Rate` is 100/3 (denominator: all windowed rows, as a percent),
while the claimed fraction among flagged rows is 1. -/
theorem success_rate_not_flagged_fraction :
    (statsOf (analyzeRows exData2 34800 35400)).success_rate = some (100/3) ∧
    specSuccessRate (analyzeRows exData2 34800 35400) = some 1 ∧
    some ((100 : ℚ)/3) ≠ some (1 : ℚ) ∧
    some ((100 : ℚ)/3) ≠ some (100 : ℚ) := by
  refine ⟨?_, ?_, by norm_num, by norm_num⟩
  · rw [analyzeRows_exData2]
    norm_num [statsOf, succCount, rowE0, rowE1, rowE2]
  · rw [analyzeRows_exData2]
    norm_num [specSuccessRate, rowE0, rowE1, rowE2, List.range_succ]

/-- C5 amended: `Success_Rate` counts the rows that are flagged and whose
next windowed row's return is strictly positive, divided by the count of
all windowed rows (not of flagged rows), times 100; undefined on an empty
window. -/
theorem success_rate_spec (data : List Bar) (st en : Nat)
    (h : analyzeRows data st en ≠ []) :
    (statsOf (analyzeRows data st en)).success_rate =
      some ((((List.range (analyzeRows data st en).length).countP
          (nextRetPos (analyzeRows data st en)) : ℕ) : ℚ) /
        ((analyzeRows data st en).length : ℚ) * 100) := by
  have hEm : (analyzeRows data st en).isEmpty = false := isEmpty_false_of_ne_nil h
  simp [statsOf, hEm, succCount_eq_countP]

/-- Witness for C5 (amended) on a non-empty concrete window. -/
theorem success_rate_spec_witness :
    (statsOf (analyzeRows exData2 34800 35400)).success_rate =
      some ((((List.range (analyzeRows exData2 34800 35400).length).countP
          (nextRetPos (analyzeRows exData2 34800 35400)) : ℕ) : ℚ) /
        ((analyzeRows exData2 34800 35400).length : ℚ) * 100) :=
  success_rate_spec exData2 34800 35400 (by rw [analyzeRows_exData2]; simp)
